import Mathlib

/-!
Verification development for the `smallsh` interactive shell (src/smallsh.c).

The C program is shallowly embedded: each C function becomes a Lean
definition over explicit state, machine `int` wait statuses become `Nat`
with the Linux/glibc bit-level encoding made explicit, and the operating
system (pid, HOME, chdir outcome, fork outcome, foreground wait outcome)
is a record of parameters `OSModel`.  Output performed with printf/write
is modelled as lists of strings or events.
-/

set_option maxHeartbeats 1000000

/-! ## Wait-status encoding (glibc `bits/waitstatus.h`, Linux encoding)

A `waitpid` status is a machine int; for a normally-exited child it is
`code << 8`, for a signal-terminated child it is the signal number in the
low 7 bits.  The macros are modelled bit-faithfully on `Nat`. -/

/-- Outcome of a child process as delivered by the kernel. -/
inductive ChildOutcome where
  | exited (code : Nat)
  | signaled (sig : Nat)
  deriving DecidableEq

/-- Linux encoding of a wait status: exit code in bits 8..15, or the
terminating signal in the low 7 bits. -/
def encodeStatus : ChildOutcome → Nat
  | .exited code => (code % 256) * 256
  | .signaled sig => sig % 128

/-- glibc `WEXITSTATUS`: `(status >> 8) & 0xff`. -/
def WEXITSTATUS (s : Nat) : Nat := (s / 256) % 256

/-- glibc `WTERMSIG`: `status & 0x7f`. -/
def WTERMSIG (s : Nat) : Nat := s % 128

/-- glibc `WIFEXITED`: `(status & 0x7f) == 0`. -/
def WIFEXITED (s : Nat) : Bool := decide (s % 128 = 0)

/-- Value of a byte reinterpreted as a C `signed char`. -/
def signedChar (n : Nat) : Int :=
  if n % 256 < 128 then ((n % 256 : Nat) : Int) else ((n % 256 : Nat) : Int) - 256

/-- glibc `WIFSIGNALED`: `((signed char)(((status & 0x7f) + 1) >> 1)) > 0`,
with `>> 1` the arithmetic shift, i.e. floor division by 2. -/
def WIFSIGNALED (s : Nat) : Bool := decide (0 < Int.ediv (signedChar (s % 128 + 1)) 2)

/-! ## PID expansion (`expandPID`, smallsh.c lines 202-240)

`expandPID` searches the token for the first occurrence of `"$$"`
(`strstr`), and if found splices in the decimal form of the shell's pid
(`snprintf "%d"`); otherwise it returns the token unchanged (`strdup`). -/

/-- Index of the first occurrence of the two-character marker `"$$"` in a
character list, as computed by `strstr(token, "$$")`. -/
def findMarker : List Char → Option Nat
  | [] => none
  | c :: rest =>
      if c = '$' ∧ rest.head? = some '$' then some 0
      else (findMarker rest).map (· + 1)

/-- Decimal string of the shell's own process id, as produced by
`snprintf(pid_str, sizeof(pid_str), "%d", pid)` for the nonnegative pid. -/
def pidString (pid : Nat) : List Char := (Nat.repr pid).data

/-- Character-list core of `expandPID`: splice `pidStr` over the first
occurrence of `"$$"`, or return the token unchanged when there is none. -/
def expandPIDL (pidStr : List Char) (tok : List Char) : List Char :=
  match findMarker tok with
  | none => tok
  | some i => tok.take i ++ pidStr ++ tok.drop (i + 2)

/-- `expandPID` from smallsh.c (successful-allocation behaviour). -/
def expandPID (pid : Nat) (tok : String) : String :=
  ⟨expandPIDL (pidString pid) tok.data⟩

/-- `expandPID` including the allocation-failure path: `malloc` runs only
when the marker was found, and its failure calls `exit(1)` (modelled as
`.error 1`, the process exit code). -/
def expandPIDAlloc (allocFails : Bool) (pid : Nat) (tok : List Char) :
    Except Nat (List Char) :=
  match findMarker tok with
  | none => .ok tok
  | some i =>
      if allocFails then .error 1
      else .ok (tok.take i ++ pidString pid ++ tok.drop (i + 2))

/-- Spec-side notion used to state claims: the token has no occurrence of
the marker `"$$"` at any position. -/
def noMarker (l : List Char) : Prop := ∀ i < l.length, (l.drop i).take 2 ≠ ['$', '$']

instance noMarkerDecidable (l : List Char) : Decidable (noMarker l) := by
  unfold noMarker
  infer_instance

/-! ## Tokenization

`parseInput` tokenizes with `strtok(input, " ")`: maximal nonempty runs of
non-space characters. -/

/-- Split a character list into the maximal nonempty space-separated runs,
accumulating the current run in reverse. -/
def splitAux : List Char → List Char → List (List Char)
  | [], acc => if acc.isEmpty then [] else [acc.reverse]
  | c :: rest, acc =>
      if c = ' ' then
        (if acc.isEmpty then splitAux rest [] else acc.reverse :: splitAux rest [])
      else splitAux rest (c :: acc)

/-- The token sequence `strtok(line, " ")` traverses. -/
def tokenize (line : String) : List String :=
  (splitAux line.data []).map (fun l => ⟨l⟩)

/-! ## The parser (`parseInput`, smallsh.c lines 143-200)

The C function mutates the caller's `args`, `inputFile`, `outputFile`,
`background`; `ParseState` carries those four.  Only `background` is reset
on entry (line 147); the file fields keep their incoming values unless a
`<` or `>` token assigns them.

The `&`-is-last-token test at line 173 is
`strcmp(token, "&") == 0 && strtok(NULL, " ") == NULL`: the embedded
`strtok(NULL, " ")` call consumes the token after a non-final `&`, so that
token is never seen by the loop again. -/

structure ParseState where
  args : List String
  inputFile : Option String
  outputFile : Option String
  background : Bool
  deriving DecidableEq

/-- The `while (token != NULL && argCount < MAX_ARGS - 1)` loop of
`parseInput`, over the remaining token list.  `MAX_ARGS = 512`. -/
def parseLoop (fgOnly : Bool) (pid : Nat) : List String → Nat → ParseState → ParseState
  | [], _, st => st
  | t :: rest, argCount, st =>
      if argCount < 511 then
        if t = "<" then
          match rest with
          | [] => { st with inputFile := none }
          | f :: rest' => parseLoop fgOnly pid rest' argCount { st with inputFile := some f }
        else if t = ">" then
          match rest with
          | [] => { st with outputFile := none }
          | f :: rest' => parseLoop fgOnly pid rest' argCount { st with outputFile := some f }
        else if t = "&" then
          match rest with
          | [] => if fgOnly then st else { st with background := true }
          | _ :: rest' =>
              parseLoop fgOnly pid rest' (argCount + 1)
                { st with args := st.args ++ [expandPID pid t] }
        else
          parseLoop fgOnly pid rest (argCount + 1)
            { st with args := st.args ++ [expandPID pid t] }
      else st

/-- `parseInput`: reset `background`, keep the incoming redirection fields,
run the token loop. -/
def parseInput (fgOnly : Bool) (pid : Nat) (ts : List String)
    (inF outF : Option String) : ParseState :=
  parseLoop fgOnly pid ts 0 { args := [], inputFile := inF, outputFile := outF, background := false }

/-- Return value of `parseInput` (line 197):
`args[0] == NULL || args[0][0] == '#' ? 0 : 1`. -/
def parseValid (st : ParseState) : Bool :=
  match st.args.head? with
  | none => false
  | some a => decide (a.data.head? ≠ some '#')

/-! ## Shell state, OS parameters and observable events -/

/-- The shell's mutable state: the two globals `fgOnlyMode` and
`lastStatus`, and `main`'s persistent locals `inputFile`, `outputFile`,
`background`. -/
structure ShellState where
  fgOnlyMode : Bool
  lastStatus : Nat
  inputFile : Option String
  outputFile : Option String
  background : Bool
  deriving DecidableEq

/-- Result of `fork()`. -/
inductive ForkOutcome where
  | forkFailed
  | forked (childPid : Nat)
  deriving DecidableEq

/-- Parameters supplied by the operating system during one loop iteration:
the shell's pid, the HOME variable, whether `chdir` to a path succeeds,
the outcome of `fork`, and the outcome `waitpid` reports for a foreground
child. -/
structure OSModel where
  pid : Nat
  home : String
  chdirOk : String → Bool
  forkResult : ForkOutcome
  foregroundOutcome : ChildOutcome

/-- Observable actions of one loop iteration.  `out` is a `printf` to
stdout (trailing newlines dropped uniformly); `chdirCall` records the
path handed to `chdir`; `exec` records the spawned child's argument list,
redirection paths and effective background flag; `killChild` records a
`kill(pid, SIGKILL)`. -/
inductive Ev where
  | out (s : String)
  | chdirCall (target : String)
  | exec (args : List String) (inp : Option String) (outp : Option String) (bg : Bool)
  | killChild (pid : Nat)
  deriving DecidableEq

/-! ## The functions smallsh.c defines but `main` never calls

`changeDirectory` (lines 242-257), `displayStatus` (lines 259-277) and
`killBackgroundProcesses` (lines 437-452) are defined and documented in
the source but have no call site: `main` inlines its own `cd`, `status`
and `exit` handling instead. -/

/-- `changeDirectory`: with no argument, `chdir(getenv("HOME"))` unchecked;
with an argument, `chdir(args[1])` and on failure `perror("smallsh")`
(the OS-supplied reason text is abbreviated to a fixed string). -/
def changeDirectory (os : OSModel) (arg : Option String) : List Ev :=
  match arg with
  | none => [Ev.chdirCall os.home]
  | some d =>
      if os.chdirOk d then [Ev.chdirCall d]
      else [Ev.chdirCall d, Ev.out "smallsh: chdir failed"]

/-- `displayStatus`: `exit value N` when `WIFEXITED(lastStatus)`, else
`terminated by signal N`. -/
def displayStatusLine (lastStatus : Nat) : String :=
  if WIFEXITED lastStatus then "exit value " ++ toString (WEXITSTATUS lastStatus)
  else "terminated by signal " ++ toString (WTERMSIG lastStatus)

/-- `killBackgroundProcesses`: reap each not-yet-reaped child with
`waitpid(-1, NULL, WNOHANG)` and `kill(pid, SIGKILL)` it. -/
def killBackgroundProcesses (pending : List Nat) : List Ev :=
  pending.map Ev.killChild

/-! ## The Job Reaper sweep (`checkBackgroundProcesses`, lines 406-435) -/

/-- The two `printf` chunks emitted for one reaped child: the
`background pid N is done: ` prefix, then the outcome chunk chosen by
`WIFEXITED` / `WIFSIGNALED`. -/
def bgDoneChunks (pid status : Nat) : List String :=
  ["background pid " ++ toString pid ++ " is done: "] ++
    (if WIFEXITED status then ["exit value " ++ toString (WEXITSTATUS status)]
     else if WIFSIGNALED status then ["terminated by signal " ++ toString (WTERMSIG status)]
     else [])

/-- `checkBackgroundProcesses`: the `waitpid(-1, &childStatus, WNOHANG)`
loop over the already-terminated children `(pid, status)`, printing each
report only when `fgOnlyMode` is off. -/
def checkBackgroundProcesses (fgOnly : Bool) : List (Nat × Nat) → List String
  | [] => []
  | (pid, status) :: rest =>
      (if fgOnly then [] else bgDoneChunks pid status) ++
        checkBackgroundProcesses fgOnly rest

/-! ## The launcher (`executeCommand`, lines 279-381)

Child-side redirection setup is summarised by the `Ev.exec` event (its
failure paths terminate only the child, never the shell).  `.error c`
models the shell-fatal `exit(c)` after a failed `fork`. -/

/-- `executeCommand`: force `background` off under foreground-only mode,
fork, and either report the background pid and return, or block on the
child and record its wait status, reporting a signal termination at once.
Returns the new `lastStatus` and the emitted events, or the shell's exit
code when `fork` failed. -/
def executeCommand (os : OSModel) (fgOnly : Bool) (args : List String)
    (inputFile outputFile : Option String) (background : Bool) (lastStatus : Nat) :
    Except Nat (Nat × List Ev) :=
  let bg := if fgOnly then false else background
  match os.forkResult with
  | .forkFailed => .error 1
  | .forked cpid =>
      if bg then
        .ok (lastStatus, [Ev.exec args inputFile outputFile bg,
                          Ev.out ("background pid is " ++ toString cpid)])
      else
        let st := encodeStatus os.foregroundOutcome
        .ok (st, [Ev.exec args inputFile outputFile bg] ++
          (if WIFSIGNALED st then [Ev.out ("terminated by signal " ++ toString (WTERMSIG st))]
           else []))

/-! ## One iteration of the main loop (`main`, lines 96-137) -/

/-- Result of one main-loop iteration: keep looping with a new state, or
leave the process with an exit code. -/
inductive StepResult where
  | next (s : ShellState) (events : List Ev)
  | exitShell (code : Nat) (events : List Ev)
  deriving DecidableEq

/-- The reset `inputFile = outputFile = NULL; background = 0;` performed
at lines 135-136 after a dispatched command. -/
def resetAfter (s : ShellState) : ShellState :=
  { s with inputFile := none, outputFile := none, background := false }

/-- One iteration of `main`'s loop after the line has been read (the
Reaper sweep at the loop top is `checkBackgroundProcesses` above).  A
skipped line (`parseInput` returned 0) jumps back with `continue`,
leaving the parse's field values in place; `exit` breaks straight to
`return 0`; `cd` calls `chdir` ignoring its result; `status` always
prints `exit value WEXITSTATUS(lastStatus)`; anything else is dispatched
to `executeCommand`, whose shell-fatal path exits the process. -/
def mainStep (os : OSModel) (s : ShellState) (line : String) : StepResult :=
  let p := parseInput s.fgOnlyMode os.pid (tokenize line) s.inputFile s.outputFile
  let s1 : ShellState :=
    { s with inputFile := p.inputFile, outputFile := p.outputFile, background := p.background }
  match p.args.head? with
  | none => .next s1 []
  | some a0 =>
      if a0.data.head? = some '#' then .next s1 []
      else if a0 = "exit" then .exitShell 0 []
      else if a0 = "cd" then
        .next (resetAfter s1) [Ev.chdirCall ((p.args[1]?).getD os.home)]
      else if a0 = "status" then
        .next (resetAfter s1) [Ev.out ("exit value " ++ toString (WEXITSTATUS s.lastStatus))]
      else
        match executeCommand os s.fgOnlyMode p.args p.inputFile p.outputFile p.background
            s.lastStatus with
        | .error code => .exitShell code []
        | .ok (st2, evs) => .next { resetAfter s1 with lastStatus := st2 } evs

/-! ## The Mode Controller (`handle_SIGTSTP`, lines 383-404) -/

/-- `handle_SIGTSTP`: flip `fgOnlyMode` and emit one of the two fixed
notices with a raw `write` (returned as the second component); no other
field of the shell state is touched. -/
def handle_SIGTSTP (s : ShellState) : ShellState × String :=
  if s.fgOnlyMode = false then
    ({ s with fgOnlyMode := true }, "\nEntering foreground-only mode (& is now ignored)\n")
  else
    ({ s with fgOnlyMode := false }, "\nExiting foreground-only mode\n")

/-! ## Concrete fixtures for closed evaluations -/

def baseOS : OSModel :=
  { pid := 1234, home := "/home/user", chdirOk := fun _ => true,
    forkResult := .forked 77, foregroundOutcome := .exited 0 }

def osCdFail : OSModel := { baseOS with chdirOk := fun _ => false }

def osForkFail : OSModel := { baseOS with forkResult := .forkFailed }

def baseState : ShellState :=
  { fgOnlyMode := false, lastStatus := 0, inputFile := none, outputFile := none,
    background := false }

/-! ## Helper lemmas -/

/-- Combined loop invariant of `parseLoop`: the background flag can only
be raised when foreground-only mode is off, and the redirection fields
are written only on a `<` / `>` token. -/
theorem parseLoop_inv (fgOnly : Bool) (pid : Nat) (ts : List String) (n : Nat)
    (st : ParseState) :
    ((parseLoop fgOnly pid ts n st).background = true →
        st.background = true ∨ fgOnly = false) ∧
    ("<" ∉ ts → (parseLoop fgOnly pid ts n st).inputFile = st.inputFile) ∧
    (">" ∉ ts → (parseLoop fgOnly pid ts n st).outputFile = st.outputFile) := by
  induction ts, n, st using parseLoop.induct fgOnly pid with
  | case1 n st => exact ⟨fun h => Or.inl h, fun _ => rfl, fun _ => rfl⟩
  | case2 n st h511 =>
      have he : parseLoop fgOnly pid ["<"] n st = { st with inputFile := none } := by
        rw [parseLoop.eq_def]; simp [h511]
      rw [he]
      exact ⟨fun h => Or.inl h, fun hm => by simp at hm, fun _ => rfl⟩
  | case3 n st h511 f rest' ih =>
      have he : parseLoop fgOnly pid ("<" :: f :: rest') n st =
          parseLoop fgOnly pid rest' n { st with inputFile := some f } := by
        rw [parseLoop.eq_def]; simp [h511]
      rw [he]
      refine ⟨fun hb => ih.1 hb, fun hm => by simp at hm, fun hm => ?_⟩
      exact ih.2.2 (fun hc => hm (by simp [hc]))
  | case4 n st h511 hne =>
      have he : parseLoop fgOnly pid [">"] n st = { st with outputFile := none } := by
        rw [parseLoop.eq_def]; simp [h511]
      rw [he]
      exact ⟨fun h => Or.inl h, fun _ => rfl, fun hm => by simp at hm⟩
  | case5 n st h511 f rest' hne ih =>
      have he : parseLoop fgOnly pid (">" :: f :: rest') n st =
          parseLoop fgOnly pid rest' n { st with outputFile := some f } := by
        rw [parseLoop.eq_def]; simp [h511]
      rw [he]
      refine ⟨fun hb => ih.1 hb, fun hm => ?_, fun hm => by simp at hm⟩
      exact ih.2.1 (fun hc => hm (by simp [hc]))
  | case6 n st h511 hfg hne1 hne2 =>
      have he : parseLoop fgOnly pid ["&"] n st = st := by
        rw [parseLoop.eq_def]; simp [h511, hfg]
      rw [he]
      exact ⟨fun h => Or.inl h, fun _ => rfl, fun _ => rfl⟩
  | case7 n st h511 hfg hne1 hne2 =>
      have he : parseLoop fgOnly pid ["&"] n st = { st with background := true } := by
        rw [parseLoop.eq_def]; simp [h511, hfg]
      rw [he]
      exact ⟨fun _ => Or.inr (by simpa using hfg), fun _ => rfl, fun _ => rfl⟩
  | case8 n st h511 f rest' hne1 hne2 ih =>
      have he : parseLoop fgOnly pid ("&" :: f :: rest') n st =
          parseLoop fgOnly pid rest' (n + 1)
            { st with args := st.args ++ [expandPID pid "&"] } := by
        rw [parseLoop.eq_def]; simp [h511]
      rw [he]
      refine ⟨fun hb => ih.1 hb, fun hm => ?_, fun hm => ?_⟩
      · exact ih.2.1 (fun hc => hm (by simp [hc]))
      · exact ih.2.2 (fun hc => hm (by simp [hc]))
  | case9 t rest n st h511 hne1 hne2 hne3 ih =>
      have he : parseLoop fgOnly pid (t :: rest) n st =
          parseLoop fgOnly pid rest (n + 1)
            { st with args := st.args ++ [expandPID pid t] } := by
        rw [parseLoop.eq_def]; simp [h511, hne1, hne2, hne3]
      rw [he]
      refine ⟨fun hb => ih.1 hb, fun hm => ?_, fun hm => ?_⟩
      · exact ih.2.1 (fun hc => hm (by simp [hc]))
      · exact ih.2.2 (fun hc => hm (by simp [hc]))
  | case10 t rest n st h511 =>
      have he : parseLoop fgOnly pid (t :: rest) n st = st := by
        rw [parseLoop.eq_def]; simp [h511]
      rw [he]
      exact ⟨fun h => Or.inl h, fun _ => rfl, fun _ => rfl⟩

/-- `strstr` finds no `"$$"` when the token has no occurrence of it. -/
theorem findMarker_eq_none_of_noMarker : ∀ l : List Char, noMarker l → findMarker l = none := by
  intro l
  induction l with
  | nil => intro _; rfl
  | cons c rest ih =>
      intro h
      have hnot : ¬(c = '$' ∧ rest.head? = some '$') := by
        rintro ⟨hc, hh⟩
        cases rest with
        | nil => simp at hh
        | cons d rest' =>
            have := h 0 (by simp)
            simp at hh
            simp [hc, hh] at this
      have hrest : noMarker rest := by
        intro i hi
        have := h (i + 1) (by simpa using Nat.succ_lt_succ hi)
        simpa using this
      simp [findMarker, hnot, ih hrest]

/-- Exit statuses satisfy `WIFEXITED`. -/
theorem WIFEXITED_encode_exited (c : Nat) : WIFEXITED (encodeStatus (.exited c)) = true := by
  simp [WIFEXITED, encodeStatus]
  omega

/-- `WEXITSTATUS` recovers the exit code below 256. -/
theorem WEXITSTATUS_encode_exited (c : Nat) (h : c < 256) :
    WEXITSTATUS (encodeStatus (.exited c)) = c := by
  simp [WEXITSTATUS, encodeStatus]
  omega

/-- Signal statuses with a real signal number fail `WIFEXITED`. -/
theorem WIFEXITED_encode_signaled (sig : Nat) (h : 0 < sig % 128) :
    WIFEXITED (encodeStatus (.signaled sig)) = false := by
  simp [WIFEXITED, encodeStatus]
  omega

/-- `WIFSIGNALED` holds for a status whose low seven bits are a signal
number in 1..126. -/
theorem WIFSIGNALED_of_sig (s : Nat) (h1 : 0 < s % 128) (h2 : s % 128 < 127) :
    WIFSIGNALED s = true := by
  unfold WIFSIGNALED signedChar
  have h3 : (s % 128 + 1) % 256 = s % 128 + 1 := by omega
  rw [h3, if_pos (by omega : s % 128 + 1 < 128)]
  simp only [decide_eq_true_eq]
  have h4 : Int.ediv ((s % 128 + 1 : Nat) : Int) 2 = (((s % 128 + 1) / 2 : Nat) : Int) := rfl
  rw [h4]
  have h5 : 0 < (s % 128 + 1) / 2 := by omega
  exact_mod_cast h5

/-- `WTERMSIG` recovers the signal number below 128. -/
theorem WTERMSIG_encode_signaled (sig : Nat) (h : sig < 128) :
    WTERMSIG (encodeStatus (.signaled sig)) = sig := by
  simp [WTERMSIG, encodeStatus]
  omega

/-! ## Claims -/

/-- Claim C1 (code bug, evaluation at the failing input).  After a
foreground child was terminated by signal 2, `main`'s `status` builtin
(line 128) prints "exit value 0": it applies `WEXITSTATUS` without the
`WIFEXITED` test.  The unused `displayStatus` helper — and the claim —
require "terminated by signal 2" and no exit value at all. -/
theorem c1_status_reports_exit_value_for_signal :
    mainStep baseOS { baseState with lastStatus := encodeStatus (.signaled 2) } "status" =
      .next { baseState with lastStatus := encodeStatus (.signaled 2) }
        [Ev.out "exit value 0"] ∧
    displayStatusLine (encodeStatus (.signaled 2)) = "terminated by signal 2" :=
  ⟨rfl, rfl⟩

/-- Claim C2 (code bug, evaluation at the failing input).  The `exit`
builtin (line 119-121) breaks out of the loop straight to `return 0`
without emitting any event — in particular no shutdown sweep — while the
unused `killBackgroundProcesses` helper would have killed each pending
child. -/
theorem c2_exit_path_no_shutdown_sweep :
    mainStep baseOS baseState "exit" = .exitShell 0 [] ∧
    killBackgroundProcesses [55] = [Ev.killChild 55] :=
  ⟨rfl, rfl⟩

/-- Claim C3 (code bug, evaluation at the failing input).  On the line
`echo & hi`, the non-final `&` is stored as a literal argument as the
claim says, but the `strtok(NULL, " ")` lookahead in the `&`-is-last test
(line 173) consumes `hi`, which therefore never becomes an argument. -/
theorem c3_token_after_nonfinal_amp_lost :
    (parseInput false 1234 (tokenize "echo & hi") none none).args = ["echo", "&"] ∧
    "hi" ∉ (parseInput false 1234 (tokenize "echo & hi") none none).args :=
  ⟨rfl, by decide⟩

/-- Claim C4 (code bug, evaluation at the failing input).  `main`'s `cd`
branch (line 125) calls `chdir` directly and ignores its result: on a
failing `chdir` the dispatched events contain no report, and only the
unused `changeDirectory` helper would have printed one.  The shell does
continue running (the result is `.next`). -/
theorem c4_cd_failure_unreported :
    mainStep osCdFail baseState "cd /nonexistent" =
      .next baseState [Ev.chdirCall "/nonexistent"] ∧
    changeDirectory osCdFail (some "/nonexistent") =
      [Ev.chdirCall "/nonexistent", Ev.out "smallsh: chdir failed"] :=
  ⟨rfl, rfl⟩

/-- Claim C5: when foreground-only mode is active at dispatch time the
launcher behaves exactly as if `background` were false, whatever was
requested; and the parser produces `background = true` only when
foreground-only mode is inactive at parse time. -/
theorem c5_foreground_only_forces_background_false :
    (∀ (os : OSModel) (args : List String) (inF outF : Option String) (bg : Bool)
        (last : Nat),
        executeCommand os true args inF outF bg last =
          executeCommand os true args inF outF false last) ∧
    (∀ (fgOnly : Bool) (pid : Nat) (ts : List String) (inF outF : Option String),
        (parseInput fgOnly pid ts inF outF).background = true → fgOnly = false) := by
  constructor
  · intro os args inF outF bg last
    rfl
  · intro fgOnly pid ts inF outF h
    rcases (parseLoop_inv fgOnly pid ts 0 _).1 h with h' | h'
    · simp at h'
    · exact h'

/-- Claim C5, witness. -/
theorem c5_witness :
    executeCommand baseOS true ["sleep", "5"] none none true 0 =
      executeCommand baseOS true ["sleep", "5"] none none false 0 ∧
    false = false :=
  ⟨c5_foreground_only_forces_background_false.1 baseOS ["sleep", "5"] none none true 0,
   c5_foreground_only_forces_background_false.2 false 1234 ["sleep", "5", "&"] none none
     (by decide)⟩

/-- Claim C6: PID expansion is the identity on every token with no
occurrence of the marker `"$$"`, and maps the token `"$$"` itself to
exactly the decimal string of the shell's pid. -/
theorem c6_expansion_identity_and_pid :
    (∀ (pid : Nat) (tok : String), noMarker tok.data → expandPID pid tok = tok) ∧
    (∀ pid : Nat, expandPID pid "$$" = Nat.repr pid) := by
  constructor
  · intro pid tok h
    unfold expandPID expandPIDL
    rw [findMarker_eq_none_of_noMarker tok.data h]
  · intro pid
    unfold expandPID expandPIDL
    have hd : "$$".data = ['$', '$'] := rfl
    rw [hd]
    have h : findMarker ['$', '$'] = some 0 := rfl
    rw [h]
    simp [pidString]

/-- Claim C6, witness. -/
theorem c6_witness :
    expandPID 42 "ls" = "ls" ∧ expandPID 42 "$$" = Nat.repr 42 :=
  ⟨c6_expansion_identity_and_pid.1 42 "ls" (by decide),
   c6_expansion_identity_and_pid.2 42⟩

/-- Claim C7: a Reaper sweep with no terminated children produces no
output; with foreground-only mode active it reports nothing; with it
inactive it reports exactly one identity-and-outcome record per reaped
child, showing the exit value for a normal exit and the signal number for
a signal termination. -/
theorem c7_reaper_sweep :
    (∀ fgOnly : Bool, checkBackgroundProcesses fgOnly [] = []) ∧
    (∀ pending, checkBackgroundProcesses true pending = []) ∧
    (∀ pending, checkBackgroundProcesses false pending =
      (pending.map fun pr => bgDoneChunks pr.1 pr.2).flatten) ∧
    (∀ pid c, c < 256 → bgDoneChunks pid (encodeStatus (.exited c)) =
      ["background pid " ++ toString pid ++ " is done: ", "exit value " ++ toString c]) ∧
    (∀ pid sig, 0 < sig → sig < 127 → bgDoneChunks pid (encodeStatus (.signaled sig)) =
      ["background pid " ++ toString pid ++ " is done: ",
       "terminated by signal " ++ toString sig]) := by
  refine ⟨fun _ => rfl, ?_, ?_, ?_, ?_⟩
  · intro pending
    induction pending with
    | nil => rfl
    | cons hd tl ih => simp [checkBackgroundProcesses, ih]
  · intro pending
    induction pending with
    | nil => rfl
    | cons hd tl ih =>
        cases hd with
        | mk pid status => simp [checkBackgroundProcesses, ih]
  · intro pid c hc
    simp [bgDoneChunks, WIFEXITED_encode_exited, WEXITSTATUS_encode_exited c hc]
  · intro pid sig h1 h2
    have e0 : encodeStatus (.signaled sig) = sig % 128 := rfl
    have e1 : WIFEXITED (encodeStatus (.signaled sig)) = false :=
      WIFEXITED_encode_signaled sig (by omega)
    have e2 : WIFSIGNALED (encodeStatus (.signaled sig)) = true := by
      rw [e0]
      exact WIFSIGNALED_of_sig _ (by omega) (by omega)
    have e3 : WTERMSIG (encodeStatus (.signaled sig)) = sig :=
      WTERMSIG_encode_signaled sig (by omega)
    simp [bgDoneChunks, e1, e2, e3]

/-- Claim C7, witness. -/
theorem c7_witness :
    bgDoneChunks 88 (encodeStatus (.exited 0)) =
      ["background pid 88 is done: ", "exit value 0"] ∧
    bgDoneChunks 89 (encodeStatus (.signaled 15)) =
      ["background pid 89 is done: ", "terminated by signal 15"] :=
  ⟨(c7_reaper_sweep.2.2.2.1 88 0 (by decide)).trans (by decide),
   (c7_reaper_sweep.2.2.2.2 89 15 (by decide) (by decide)).trans (by decide)⟩

/-- Claim C8 (counterexample): the fork-failure path terminates the shell
with exit code 1, not 0. -/
theorem c8_counterexample :
    mainStep osForkFail baseState "ls" = .exitShell 1 [] ∧ (1 : Nat) ≠ 0 :=
  ⟨rfl, by decide⟩

/-- Claim C8 as amended: the shell exits with code 0 on the normal `exit`
builtin path, while the process-fatal paths — `fork` failure and
allocation failure during PID expansion — terminate it with exit code 1. -/
theorem c8_amended :
    (∀ (os : OSModel) (s : ShellState), mainStep os s "exit" = .exitShell 0 []) ∧
    (∀ (os : OSModel) (fgOnly : Bool) (args : List String) (inF outF : Option String)
        (bg : Bool) (last : Nat), os.forkResult = .forkFailed →
        executeCommand os fgOnly args inF outF bg last = .error 1) ∧
    (∀ (pid : Nat) (tok : List Char) (i : Nat), findMarker tok = some i →
        expandPIDAlloc true pid tok = .error 1) := by
  refine ⟨fun os s => rfl, ?_, ?_⟩
  · intro os fgOnly args inF outF bg last h
    unfold executeCommand
    rw [h]
  · intro pid tok i h
    unfold expandPIDAlloc
    rw [h]
    rfl

/-- Claim C8, witness for the amended statement. -/
theorem c8_amended_witness :
    mainStep baseOS baseState "exit" = .exitShell 0 [] ∧
    executeCommand osForkFail false ["ls"] none none false 0 = .error 1 ∧
    expandPIDAlloc true 1234 ['$', '$'] = .error 1 :=
  ⟨c8_amended.1 baseOS baseState,
   c8_amended.2.1 osForkFail false ["ls"] none none false 0 rfl,
   c8_amended.2.2 1234 ['$', '$'] 0 rfl⟩

/-- Claim C9: the mode toggle is an involution on the whole shell state;
starting from Normal mode it emits the entering notice and then the
exiting notice; and a single invocation changes nothing but the
`fgOnlyMode` boolean. -/
theorem c9_toggle_involution :
    (∀ s : ShellState, (handle_SIGTSTP (handle_SIGTSTP s).1).1 = s) ∧
    (∀ s : ShellState, s.fgOnlyMode = false →
      (handle_SIGTSTP s).2 = "\nEntering foreground-only mode (& is now ignored)\n" ∧
      (handle_SIGTSTP (handle_SIGTSTP s).1).2 = "\nExiting foreground-only mode\n") ∧
    (∀ s : ShellState, (handle_SIGTSTP s).1.lastStatus = s.lastStatus ∧
      (handle_SIGTSTP s).1.inputFile = s.inputFile ∧
      (handle_SIGTSTP s).1.outputFile = s.outputFile ∧
      (handle_SIGTSTP s).1.background = s.background) := by
  refine ⟨?_, ?_, ?_⟩
  · intro s
    cases s with
    | mk fg last inF outF bg => cases fg <;> simp [handle_SIGTSTP]
  · intro s h
    simp [handle_SIGTSTP, h]
  · intro s
    by_cases h : s.fgOnlyMode = false <;> simp [handle_SIGTSTP, h]

/-- Claim C9, witness. -/
theorem c9_witness :
    (handle_SIGTSTP baseState).2 = "\nEntering foreground-only mode (& is now ignored)\n" ∧
    (handle_SIGTSTP (handle_SIGTSTP baseState).1).2 = "\nExiting foreground-only mode\n" :=
  c9_toggle_involution.2.1 baseState rfl

/-- Claim C10: the parser writes the redirection fields only when a `<`
or `>` token occurs (it resets only the background flag), and the main
loop clears them only after a dispatched command; hence the path parsed
from the skip line `< badfile` survives that iteration and is applied to
the next executed command. -/
theorem c10_redirection_fields_persist :
    (∀ (fgOnly : Bool) (pid : Nat) (ts : List String) (inF outF : Option String),
        "<" ∉ ts → (parseInput fgOnly pid ts inF outF).inputFile = inF) ∧
    (∀ (fgOnly : Bool) (pid : Nat) (ts : List String) (inF outF : Option String),
        ">" ∉ ts → (parseInput fgOnly pid ts inF outF).outputFile = outF) ∧
    (mainStep baseOS baseState "< badfile" =
        .next { baseState with inputFile := some "badfile" } [] ∧
      mainStep baseOS { baseState with inputFile := some "badfile" } "echo hi" =
        .next baseState [Ev.exec ["echo", "hi"] (some "badfile") none false]) := by
  refine ⟨?_, ?_, rfl, rfl⟩
  · intro fgOnly pid ts inF outF h
    exact (parseLoop_inv fgOnly pid ts 0 _).2.1 h
  · intro fgOnly pid ts inF outF h
    exact (parseLoop_inv fgOnly pid ts 0 _).2.2 h

/-- Claim C10, witness. -/
theorem c10_witness :
    (parseInput false 1234 ["echo", "hi"] (some "badfile") none).inputFile = some "badfile" ∧
    (parseInput false 1234 ["echo", "hi"] none (some "f")).outputFile = some "f" :=
  ⟨c10_redirection_fields_persist.1 false 1234 ["echo", "hi"] (some "badfile") none
     (by decide),
   c10_redirection_fields_persist.2.1 false 1234 ["echo", "hi"] none (some "f")
     (by decide)⟩
